import Mathlib

/-!
Verification of the maligog-gltf scene loader (`src/lib.rs`, `src/util.rs`).

The loader converts a glTF document into a flat GPU resource set.  GPU
handles (`maligog::Buffer`, `maligog::Sampler`, acceleration structures)
are external collaborators; we model each by the data the loader passes
to its constructor.  Byte buffers holding 32-bit integer index data are
modelled by their exact byte contents (little-endian); byte buffers
holding floating-point vertex attribute data are modelled by their byte
length (12 bytes per position, 16 per RGBA color, 8 per texcoord), since
their contents are opaque float bit patterns consumed only by the GPU,
and the loader itself only ever inspects their lengths.  Floating point
scalars carried through unchanged (material factors, matrix entries) are
modelled as rationals.  Panics (`unwrap`) are modelled by `Option`.
-/

namespace MaligogGltf

/-- `glam::Mat4`, as produced by `util::gltf_to_glam_tranform`. -/
abbrev Mat4 := Matrix (Fin 4) (Fin 4) ℚ

abbrev Vec2 := ℚ × ℚ
abbrev Vec3 := ℚ × ℚ × ℚ
abbrev Vec4 := ℚ × ℚ × ℚ × ℚ

/-- A glTF index accessor stream as handed over by `reader.read_indices()`:
the source width is 8, 16 or 32 bits.  Stored values are reduced modulo the
width's range, reflecting the Rust element types `u8`/`u16`/`u32`. -/
inductive IndexStream where
  | u8 (vals : List ℕ)
  | u16 (vals : List ℕ)
  | u32 (vals : List ℕ)
deriving DecidableEq, Repr

/-- `gltf::mesh::util::ReadIndices::into_u32`: casts every element of the
source stream to `u32`, losslessly for the narrower widths. -/
def IndexStream.intoU32 : IndexStream → List ℕ
  | .u8 v => v.map (· % 256)
  | .u16 v => v.map (· % 65536)
  | .u32 v => v.map (· % 4294967296)

/-- The raw values of the stream, before any width normalization. -/
def IndexStream.sourceVals : IndexStream → List ℕ
  | .u8 v => v
  | .u16 v => v
  | .u32 v => v

/-- A glTF primitive as seen through `primitive.reader(..)`:
`read_indices`/`read_positions` may be absent (then the loader panics),
`read_colors(0)`/`read_tex_coords(0)` are optional; colors are recorded
after `into_rgba_f32`, texcoords after `into_f32`.  `material` is
`primitive.material().index()`. -/
structure GPrimitive where
  indices : Option IndexStream
  positions : Option (List Vec3)
  colors : Option (List Vec4)
  tex_coords : Option (List Vec2)
  material : Option ℕ

/-- A document mesh (`gltf::Mesh`): name and primitive list. -/
structure GMesh where
  name : Option String
  primitives : List GPrimitive

/-- A document node (`gltf::Node`): local transform (already converted to a
4x4 matrix by `util::gltf_to_glam_tranform`), optional mesh index, children.
The document format guarantees the node graph is a tree. -/
inductive Node where
  | mk (localTransform : Mat4) (mesh : Option ℕ) (children : List Node)

def Node.localTransform : Node → Mat4
  | .mk t _ _ => t

def Node.meshIndex : Node → Option ℕ
  | .mk _ m _ => m

def Node.children : Node → List Node
  | .mk _ _ c => c

/-- A texture reference inside a material
(`gltf::texture::Info` → `t.texture()`): `sampler` is
`texture.sampler().index()` (None when the texture has no explicit
sampler), `source` is `texture.source().index()`. -/
structure GTextureRef where
  sampler : Option ℕ
  source : ℕ
deriving DecidableEq

/-- A document material's pbr-metallic-roughness data, as read by
`gather_material_infos`. -/
structure GMaterial where
  base_color_factor : Vec4
  base_color_texture : Option GTextureRef
  metallic_roughness_texture : Option GTextureRef
  metallic_factor : ℚ
  roughness_factor : ℚ

inductive MagFilter where
  | nearest
  | linear
deriving DecidableEq

inductive MinFilter where
  | nearest
  | linear
  | nearestMipmapNearest
  | linearMipmapNearest
  | nearestMipmapLinear
  | linearMipmapLinear
deriving DecidableEq

inductive WrappingMode where
  | clampToEdge
  | mirroredRepeat
  | repeatWrapping
deriving DecidableEq

/-- A document sampler (`gltf::texture::Sampler`). -/
structure GSampler where
  name : Option String
  mag_filter : Option MagFilter
  min_filter : Option MinFilter
  wrap_s : WrappingMode
  wrap_t : WrappingMode

/-- The glTF document, restricted to what the loader reads.  `scenes` holds
each scene's root nodes (children already resolved into the `Node` trees);
`scene_index` is the document's default-scene index. -/
structure Document where
  meshes : List GMesh
  materials : List GMaterial
  samplers : List GSampler
  scenes : List (List Node)
  scene_index : Option ℕ

/-- `gltf::Document::default_scene`. -/
def Document.default_scene (d : Document) : Option (List Node) :=
  d.scene_index.bind fun i => d.scenes[i]?

/-! ## Output data model (`lib.rs` structs) -/

/-- `PrimitiveInfo` (lib.rs:17). -/
structure PrimitiveInfo where
  index_offset : ℕ
  vertex_offset : ℕ
  index_count : ℕ
  vertex_count : ℕ
  material_index : ℕ
  color_offset : Option ℕ
  tex_coord_offset : Option ℕ
deriving DecidableEq, Repr

/-- `MeshInfo` (lib.rs:44). -/
structure MeshInfo where
  name : Option String
  primitive_infos : List PrimitiveInfo
deriving DecidableEq, Repr

/-- `MeshData` (lib.rs:50).  `index_buffer` is the device buffer's byte
contents; `vertex_buffer` the position buffer's byte length; the optional
color/texcoord buffers are present exactly when their accumulated byte
length is nonzero, and carry that length. -/
structure MeshData where
  index_buffer : List ℕ
  vertex_buffer : ℕ
  color_buffer : Option ℕ
  tex_coord_buffer : Option ℕ
  mesh_infos : List MeshInfo

/-- `Texture` (lib.rs:29). -/
structure Texture where
  sampler_index : ℕ
  image_index : ℕ
deriving DecidableEq, Repr

/-- `MaterialInfo` (lib.rs:35). -/
structure MaterialInfo where
  base_color_factor : Vec4
  base_color_texture : Option Texture
  metallic_roughness_texture : Option Texture
  metallic_factor : ℚ
  roughness_factor : ℚ
deriving DecidableEq, Repr

/-! ## Mesh packing (`process_meshes`, lib.rs:244-345) -/

/-- Little-endian byte serialization of one `u32`, as produced by
`bytemuck::cast_slice` on a `&[u32]`. -/
def u32le (n : ℕ) : List ℕ :=
  [n % 256, n / 256 % 256, n / 65536 % 256, n / 16777216 % 256]

/-- `bytemuck::cast_slice(&indices)` for `indices : Vec<u32>`. -/
def castSliceU32 (l : List ℕ) : List ℕ :=
  (l.map u32le).flatten

/-- The four growing byte accumulators of `process_meshes`
(`index_data`, `vertex_data`, `color_data`, `tex_coord_data`); only the
index accumulator's contents are integer data, so the three float
accumulators are tracked by byte length. -/
structure PackState where
  index_data : List ℕ
  vertex_data : ℕ
  color_data : ℕ
  tex_coord_data : ℕ
deriving DecidableEq, Repr

/-- The body of the inner primitive loop of `process_meshes`
(lib.rs:256-294): `None` models the `unwrap` panic on a missing index or
position stream.  Offsets are the accumulators' byte lengths *before* the
four `extend_from_slice` appends. -/
def processPrimitive (st : PackState) (p : GPrimitive) :
    Option (PackState × PrimitiveInfo) :=
  match p.indices, p.positions with
  | some istream, some verts =>
    let indices := istream.intoU32
    let has_colors := p.colors.isSome
    let has_tex_coords := p.tex_coords.isSome
    let colors := p.colors.getD []
    let tex_coords := p.tex_coords.getD []
    let material_index : ℕ :=
      match p.material with
      | some i => i + 1
      | none => 0
    let info : PrimitiveInfo :=
      { index_offset := st.index_data.length
        vertex_offset := st.vertex_data
        index_count := indices.length
        vertex_count := verts.length
        material_index := material_index
        color_offset := match has_colors with
          | true => some st.color_data
          | false => none
        tex_coord_offset := match has_tex_coords with
          | true => some st.tex_coord_data
          | false => none }
    some ({ index_data := st.index_data ++ castSliceU32 indices
            vertex_data := st.vertex_data + 12 * verts.length
            color_data := st.color_data + 16 * colors.length
            tex_coord_data := st.tex_coord_data + 8 * tex_coords.length },
          info)
  | _, _ => none

/-- The inner loop of `process_meshes` over one mesh's primitives. -/
def processPrimitives (st : PackState) :
    List GPrimitive → Option (PackState × List PrimitiveInfo)
  | [] => some (st, [])
  | p :: ps => do
    let (st1, info) ← processPrimitive st p
    let (st2, infos) ← processPrimitives st1 ps
    some (st2, info :: infos)

/-- The outer loop of `process_meshes` over all document meshes. -/
def processMeshList (st : PackState) :
    List GMesh → Option (PackState × List MeshInfo)
  | [] => some (st, [])
  | m :: ms => do
    let (st1, pinfos) ← processPrimitives st m.primitives
    let (st2, minfos) ← processMeshList st1 ms
    some (st2, { name := m.name, primitive_infos := pinfos } :: minfos)

/-- `process_meshes` (lib.rs:244): packs every mesh, then uploads the four
accumulators; the color and texcoord device buffers are created only when
their accumulated length is nonzero. -/
def process_meshes (gltf_meshes : List GMesh) : Option MeshData := do
  let (st, mesh_infos) ← processMeshList ⟨[], 0, 0, 0⟩ gltf_meshes
  some { index_buffer := st.index_data
         vertex_buffer := st.vertex_data
         color_buffer := if st.color_data ≠ 0 then some st.color_data else none
         tex_coord_buffer :=
           if st.tex_coord_data ≠ 0 then some st.tex_coord_data else none
         mesh_infos := mesh_infos }

/-! ## Bottom-level acceleration structures (`create_blases`, lib.rs:347-383) -/

inductive IndexType where
  | uint16
  | uint32
deriving DecidableEq, Repr

/-- `maligog::IndexBufferView`: buffer view offset into the shared index
buffer, fixed index type, element count (lib.rs:355-362). -/
structure IndexBufferView where
  offset : ℕ
  index_type : IndexType
  count : ℕ
deriving DecidableEq, Repr

/-- `maligog::VertexBufferView`: offset into the shared position buffer,
stride `size_of::<f32>() * 3 = 12` bytes, element count (lib.rs:363-371);
the fixed `R32G32B32_SFLOAT` format is implied by the stride. -/
structure VertexBufferView where
  offset : ℕ
  stride : ℕ
  count : ℕ
deriving DecidableEq, Repr

/-- `maligog::TriangleGeometry` as constructed at lib.rs:373-377. -/
structure TriangleGeometry where
  index_buffer_view : IndexBufferView
  vertex_buffer_view : VertexBufferView
deriving DecidableEq, Repr

/-- A bottom-level acceleration structure, modelled by the geometry list
passed to `create_bottom_level_acceleration_structure`. -/
structure BLAS where
  triangle_geometries : List TriangleGeometry
deriving DecidableEq, Repr

/-- `create_blases` (lib.rs:347): one BLAS per `MeshInfo`, in order, with
one triangle geometry per primitive at that primitive's recorded offsets,
index type fixed to `UINT32`. -/
def create_blases (mesh_data : MeshData) : List BLAS :=
  mesh_data.mesh_infos.map fun mesh =>
    { triangle_geometries := mesh.primitive_infos.map fun primitive =>
        { index_buffer_view :=
            { offset := primitive.index_offset
              index_type := IndexType.uint32
              count := primitive.index_count }
          vertex_buffer_view :=
            { offset := primitive.vertex_offset
              stride := 12
              count := primitive.vertex_count } } }

/-! ## Instance building (`process_node` / `create_blas_instances`,
lib.rs:185-242) -/

/-- `maligog::BLASInstance`, modelled by the arguments of
`BLASInstance::new` at lib.rs:196-202: the referenced BLAS
(`blases.get(mesh.index()).unwrap()`, recorded here by index), the node's
absolute transform, the running instance offset, and the custom index
(`mesh.index() as u32`). -/
structure BLASInstance where
  blas_index : ℕ
  transform : Mat4
  instance_offset : ℕ
  instance_custom_index : ℕ

mutual

/-- `process_node` (lib.rs:185): composes the absolute transform as
`parent * local`; a node with a mesh pushes one instance carrying the
current counter, then advances the counter by the mesh's primitive count;
children are processed after, against the composed absolute transform.
Returns the emitted instances and the counter's final value; `none`
models the `unwrap` panic on a BLAS lookup out of range (and the
document-guaranteed mesh lookup). -/
def process_node (meshes : List GMesh) (blases : List BLAS) (node : Node)
    (instance_offset : ℕ) (parent_tranform : Mat4) :
    Option (List BLASInstance × ℕ) :=
  match node with
  | .mk node_relative_transform meshRef children =>
    let node_absolute_transform : Mat4 :=
      parent_tranform * node_relative_transform
    match meshRef with
    | some mi =>
      match meshes[mi]?, blases[mi]? with
      | some mesh, some _blas =>
        let inst : BLASInstance :=
          { blas_index := mi
            transform := node_absolute_transform
            instance_offset := instance_offset
            instance_custom_index := mi }
        match process_node_list meshes blases children
            (instance_offset + mesh.primitives.length)
            node_absolute_transform with
        | some (child_insts, final) => some (inst :: child_insts, final)
        | none => none
      | _, _ => none
    | none =>
      process_node_list meshes blases children instance_offset
        node_absolute_transform

/-- The sequential traversal of a list of sibling nodes, threading the
shared counter left to right (the `children().map(..)` recursion inside
`process_node` and the `scene.nodes().map(..)` loop of
`create_blas_instances`). -/
def process_node_list (meshes : List GMesh) (blases : List BLAS)
    (nodes : List Node) (instance_offset : ℕ) (parent_tranform : Mat4) :
    Option (List BLASInstance × ℕ) :=
  match nodes with
  | [] => some ([], instance_offset)
  | n :: ns =>
    match process_node meshes blases n instance_offset parent_tranform with
    | some (insts, off1) =>
      match process_node_list meshes blases ns off1 parent_tranform with
      | some (insts2, off2) => some (insts ++ insts2, off2)
      | none => none
    | none => none

end

/-- `create_blas_instances` (lib.rs:222): traverses every scene root with
the counter starting at 0 and the identity parent transform. -/
def create_blas_instances (meshes : List GMesh) (scene_nodes : List Node)
    (blases : List BLAS) : Option (List BLASInstance) :=
  (process_node_list meshes blases scene_nodes 0 1).map Prod.fst

/-! ## Samplers (`create_samlers`, lib.rs:125-183) -/

inductive Filter where
  | nearest
  | linear
deriving DecidableEq, Repr

inductive SamplerAddressMode where
  | clampToEdge
  | mirroredRepeat
  | repeatMode
deriving DecidableEq, Repr

/-- A device sampler, modelled by the arguments of
`device.create_sampler`. -/
structure SamplerDesc where
  name : Option String
  mag_filter : Filter
  min_filter : Filter
  address_mode_u : SamplerAddressMode
  address_mode_v : SamplerAddressMode
deriving DecidableEq, Repr

def convertMagFilter : Option MagFilter → Filter
  | some .nearest => .nearest
  | some .linear => .linear
  | none => .linear

def convertMinFilter : Option MinFilter → Filter
  | some .nearest => .nearest
  | some .linear => .linear
  | some .nearestMipmapNearest => .nearest
  | some .linearMipmapNearest => .linear
  | some .nearestMipmapLinear => .nearest
  | some .linearMipmapLinear => .linear
  | none => .linear

def convertWrap : WrappingMode → SamplerAddressMode
  | .clampToEdge => .clampToEdge
  | .mirroredRepeat => .mirroredRepeat
  | .repeatWrapping => .repeatMode

/-- `create_samlers` (lib.rs:125): a synthetic default sampler first, then
one converted sampler per document sampler in order. -/
def create_samlers (gltf_samplers : List GSampler) : List SamplerDesc :=
  { name := some "default sampler"
    mag_filter := Filter.linear
    min_filter := Filter.linear
    address_mode_u := SamplerAddressMode.clampToEdge
    address_mode_v := SamplerAddressMode.clampToEdge } ::
  gltf_samplers.map fun sampler =>
    { name := sampler.name
      mag_filter := convertMagFilter sampler.mag_filter
      min_filter := convertMinFilter sampler.min_filter
      address_mode_u := convertWrap sampler.wrap_s
      address_mode_v := convertWrap sampler.wrap_t }

/-! ## Materials (`gather_material_infos`, lib.rs:385-425) -/

/-- The texture resolution of lib.rs:397-413: sampler index shifted by +1
with 0 for "no explicit sampler", image index unshifted. -/
def resolveTexture (t : GTextureRef) : Texture :=
  { sampler_index :=
      match t.sampler with
      | some i => i + 1
      | none => 0
    image_index := t.source }

/-- `gather_material_infos` (lib.rs:385): pushes the fixed default
material, then one resolved entry per document material in order. -/
def gather_material_infos (gltf_materials : List GMaterial) :
    List MaterialInfo :=
  { base_color_factor := ((1 : ℚ), (1 : ℚ), (1 : ℚ), (1 : ℚ))
    base_color_texture := none
    metallic_roughness_texture := none
    metallic_factor := 1
    roughness_factor := 1 } ::
  gltf_materials.map fun m =>
    { base_color_factor := m.base_color_factor
      base_color_texture := m.base_color_texture.map resolveTexture
      metallic_roughness_texture :=
        m.metallic_roughness_texture.map resolveTexture
      metallic_factor := m.metallic_factor
      roughness_factor := m.roughness_factor }

/-! ## Scene assembly (`Scene::from_file`, lib.rs:428-479) -/

/-- `Scene` (lib.rs:64), restricted to the fields the claims observe.
`instances` stands for the instance list compiled into the top-level
acceleration structure; `transform_buffer` for the per-instance transform
records packed at lib.rs:455-465; `load_time` models the
`std::time::Instant` taken during the load. -/
structure Scene where
  samplers : List SamplerDesc
  mesh_data : MeshData
  instances : List BLASInstance
  transform_buffer : List Mat4
  load_time : ℕ
  material_infos : List MaterialInfo

/-- `impl PartialEq for Scene` (lib.rs:75-79): equality is
`self.load_time == other.load_time`. -/
def Scene.eq (a b : Scene) : Bool :=
  a.load_time == b.load_time

/-- `Scene::from_file` (lib.rs:428), with the clock passed in as `now`:
unwraps the default scene, packs the meshes, builds the BLASes, samplers
and instances, and assembles the scene.  Device image creation and the
acceleration-structure build calls are external side effects with no
observable output beyond the data recorded here. -/
def Scene.from_file (doc : Document) (now : ℕ) : Option Scene := do
  let scene ← doc.default_scene
  let mesh_data ← process_meshes doc.meshes
  let blases := create_blases mesh_data
  let samplers := create_samlers doc.samplers
  let blas_instances ← create_blas_instances doc.meshes scene blases
  let load_time := now
  let transforms := blas_instances.map (·.transform)
  let material_infos := gather_material_infos doc.materials
  some { samplers := samplers
         mesh_data := mesh_data
         instances := blas_instances
         transform_buffer := transforms
         load_time := load_time
         material_infos := material_infos }

/-! ## Spec-side reference definitions

These definitions follow the wording of spec §4.1 and §4.5 and serve as
the comparison point for the refinement claims about `process_node`: the
source traversal is proved equal to them. -/

mutual

/-- From the spec (§4.1/§4.5): the depth-first pre-order visit of the node
tree, producing for every mesh-bearing node its mesh index together with
the node's absolute transform, computed as
`parent_absolute * local`; children are visited after the node itself and
receive the composed absolute transform, never the node-local one. -/
def specVisit (parent_absolute : Mat4) (n : Node) : List (ℕ × Mat4) :=
  match n with
  | .mk localTransform meshRef children =>
    let abs := parent_absolute * localTransform
    (match meshRef with
     | some mi => [(mi, abs)]
     | none => []) ++ specVisitList abs children

/-- Pre-order visit of sibling nodes, left to right. -/
def specVisitList (parent_absolute : Mat4) (ns : List Node) :
    List (ℕ × Mat4) :=
  match ns with
  | [] => []
  | n :: rest =>
    specVisit parent_absolute n ++ specVisitList parent_absolute rest

end

/-- The primitive count of mesh `mi` of the document (`0` when out of
range; the traversal only succeeds when every visited index is in
range). -/
def primCountOf (meshes : List GMesh) (mi : ℕ) : ℕ :=
  ((meshes[mi]?).map fun m => m.primitives.length).getD 0

/-- From the spec (§4.5 transition rule): replay the visit list through
the counter state machine — each visited mesh-bearing node emits exactly
one instance record carrying the counter's current value as its
primitive offset, and the counter then advances by that mesh's primitive
count (not by 1). -/
def specInstances (meshes : List GMesh) :
    List (ℕ × Mat4) → ℕ → List BLASInstance
  | [], _ => []
  | (mi, t) :: rest, counter =>
    { blas_index := mi
      transform := t
      instance_offset := counter
      instance_custom_index := mi } ::
    specInstances meshes rest (counter + primCountOf meshes mi)

/-- From the spec (§8): the sum of primitive counts over the visited
node-references (a mesh referenced by two nodes contributes twice). -/
def specTotalPrims (meshes : List GMesh) (visits : List (ℕ × Mat4)) : ℕ :=
  (visits.map fun v => primCountOf meshes v.1).sum

/-! ## Helper lemmas -/

/-- Mutual induction over a node tree and a sibling list. -/
theorem node_ind2 {P : Node → Prop} {Q : List Node → Prop}
    (hmk : ∀ t m c, Q c → P (Node.mk t m c))
    (hnil : Q [])
    (hcons : ∀ n l, P n → Q l → Q (n :: l)) :
    (∀ n, P n) ∧ (∀ l, Q l) := by
  have hn : ∀ n, P n := fun n => @Node.rec P Q hmk hnil hcons n
  refine ⟨hn, ?_⟩
  intro l
  induction l with
  | nil => exact hnil
  | cons a l ih => exact hcons a l (hn a) ih

theorem specVisit_mk (parent : Mat4) (t : Mat4) (m : Option ℕ)
    (c : List Node) :
    specVisit parent (Node.mk t m c) =
      (match m with
       | some mi => [(mi, parent * t)]
       | none => []) ++ specVisitList (parent * t) c := by
  rw [specVisit.eq_def]

theorem specVisitList_nil (parent : Mat4) : specVisitList parent [] = [] := by
  rw [specVisitList.eq_def]

theorem specVisitList_cons (parent : Mat4) (n : Node) (ns : List Node) :
    specVisitList parent (n :: ns) =
      specVisit parent n ++ specVisitList parent ns := by
  rw [specVisitList.eq_def]

theorem specTotalPrims_append (meshes : List GMesh)
    (a b : List (ℕ × Mat4)) :
    specTotalPrims meshes (a ++ b) =
      specTotalPrims meshes a + specTotalPrims meshes b := by
  simp [specTotalPrims]

theorem specInstances_append (meshes : List GMesh)
    (a b : List (ℕ × Mat4)) (off : ℕ) :
    specInstances meshes (a ++ b) off =
      specInstances meshes a off ++
        specInstances meshes b (off + specTotalPrims meshes a) := by
  induction a generalizing off with
  | nil => simp [specInstances, specTotalPrims]
  | cons hd tl ih =>
    obtain ⟨mi, t⟩ := hd
    simp [specInstances, ih, specTotalPrims, List.map_cons, List.sum_cons,
      Nat.add_assoc]

theorem specInstances_map_transform (meshes : List GMesh)
    (v : List (ℕ × Mat4)) (off : ℕ) :
    (specInstances meshes v off).map (·.transform) = v.map Prod.snd := by
  induction v generalizing off with
  | nil => simp [specInstances]
  | cons hd tl ih => obtain ⟨mi, t⟩ := hd; simp [specInstances, ih]

theorem specInstances_map_blas (meshes : List GMesh)
    (v : List (ℕ × Mat4)) (off : ℕ) :
    (specInstances meshes v off).map (·.blas_index) = v.map Prod.fst := by
  induction v generalizing off with
  | nil => simp [specInstances]
  | cons hd tl ih => obtain ⟨mi, t⟩ := hd; simp [specInstances, ih]

/-- The master simulation: a successful `process_node` run produces
exactly the instance list that the spec's counter state machine produces
on the spec's visit list, and the final counter is the initial counter
plus the total primitive count of the visited node-references. -/
theorem process_node_sim (meshes : List GMesh) (blases : List BLAS) :
    (∀ n : Node, ∀ off parent insts off',
      process_node meshes blases n off parent = some (insts, off') →
        insts = specInstances meshes (specVisit parent n) off ∧
        off' = off + specTotalPrims meshes (specVisit parent n)) ∧
    (∀ l : List Node, ∀ off parent insts off',
      process_node_list meshes blases l off parent = some (insts, off') →
        insts = specInstances meshes (specVisitList parent l) off ∧
        off' = off + specTotalPrims meshes (specVisitList parent l)) := by
  apply node_ind2
  · intro t m c hc off parent insts off' h
    rw [process_node.eq_def] at h
    simp only at h
    rw [specVisit_mk]
    cases m with
    | none =>
      simp only at h
      have := hc off (parent * t) insts off' h
      simpa using this
    | some mi =>
      simp only at h
      cases hm : meshes[mi]? with
      | none => rw [hm] at h; cases blases[mi]? <;> simp at h
      | some mesh =>
        rw [hm] at h
        cases hb : blases[mi]? with
        | none => rw [hb] at h; simp at h
        | some blas =>
          rw [hb] at h
          simp only at h
          cases hrec : process_node_list meshes blases c
              (off + mesh.primitives.length) (parent * t) with
          | none => rw [hrec] at h; simp at h
          | some res =>
            obtain ⟨cinsts, final⟩ := res
            rw [hrec] at h
            simp only [Option.some.injEq, Prod.mk.injEq] at h
            obtain ⟨hinsts, hoff⟩ := h
            have hc' := hc (off + mesh.primitives.length) (parent * t)
              cinsts final hrec
            have hpc : primCountOf meshes mi = mesh.primitives.length := by
              simp [primCountOf, hm]
            constructor
            · rw [← hinsts]
              simp only [List.cons_append, List.nil_append, specInstances,
                hpc, List.append]
              rw [hc'.1]
            · rw [← hoff, hc'.2]
              simp [specTotalPrims, hpc, Nat.add_assoc]
  · intro off parent insts off' h
    rw [process_node_list.eq_def] at h
    simp only [Option.some.injEq, Prod.mk.injEq] at h
    obtain ⟨h1, h2⟩ := h
    subst h1; subst h2
    simp [specVisitList_nil, specInstances, specTotalPrims]
  · intro n l hn hl off parent insts off' h
    rw [process_node_list.eq_def] at h
    simp only at h
    cases h1 : process_node meshes blases n off parent with
    | none => rw [h1] at h; simp at h
    | some res1 =>
      obtain ⟨insts1, off1⟩ := res1
      rw [h1] at h
      simp only at h
      cases h2 : process_node_list meshes blases l off1 parent with
      | none => rw [h2] at h; simp at h
      | some res2 =>
        obtain ⟨insts2, off2⟩ := res2
        rw [h2] at h
        simp only [Option.some.injEq, Prod.mk.injEq] at h
        obtain ⟨hi, ho⟩ := h
        have e1 := hn off parent insts1 off1 h1
        have e2 := hl off1 parent insts2 off2 h2
        rw [specVisitList_cons]
        constructor
        · rw [← hi, e1.1, e2.1, e1.2, specInstances_append]
        · rw [← ho, e2.2, e1.2, specTotalPrims_append]
          omega

theorem u32le_length (n : ℕ) : (u32le n).length = 4 := rfl

theorem castSliceU32_length (l : List ℕ) :
    (castSliceU32 l).length = 4 * l.length := by
  induction l with
  | nil => simp [castSliceU32]
  | cons a l ih =>
    simp [castSliceU32, u32le] at ih ⊢
    omega

/-- `processPrimitive` fails exactly when the required index or position
stream is absent. -/
theorem processPrimitive_isNone_iff (st : PackState) (p : GPrimitive) :
    processPrimitive st p = none ↔
      p.indices = none ∨ p.positions = none := by
  cases hi : p.indices <;> cases hp : p.positions <;>
    simp [processPrimitive, hi, hp]

/-- What one successful packing step records and appends. -/
theorem processPrimitive_spec (st : PackState) (p : GPrimitive)
    (st' : PackState) (info : PrimitiveInfo)
    (h : processPrimitive st p = some (st', info)) :
    info.index_offset = st.index_data.length ∧
    info.vertex_offset = st.vertex_data ∧
    st'.index_data.length = st.index_data.length + 4 * info.index_count ∧
    st'.vertex_data = st.vertex_data + 12 * info.vertex_count ∧
    st.color_data ≤ st'.color_data ∧
    st.tex_coord_data ≤ st'.tex_coord_data ∧
    info.color_offset = (p.colors.map fun _ => st.color_data) ∧
    info.tex_coord_offset = (p.tex_coords.map fun _ => st.tex_coord_data) ∧
    info.material_index = (match p.material with
      | some i => i + 1
      | none => 0) ∧
    (∀ istream, p.indices = some istream →
      st'.index_data =
        st.index_data ++ castSliceU32 istream.intoU32 ∧
      info.index_count = istream.intoU32.length) := by
  cases hi : p.indices with
  | none => simp [processPrimitive, hi] at h
  | some istream =>
    cases hp : p.positions with
    | none => simp [processPrimitive, hi, hp] at h
    | some verts =>
      simp only [processPrimitive, hi, hp, Option.some.injEq,
        Prod.mk.injEq] at h
      obtain ⟨hst, hinfo⟩ := h
      subst hst hinfo
      refine ⟨rfl, rfl, ?_, rfl, by simp, by simp, ?_, ?_, rfl, ?_⟩
      · simp [castSliceU32_length]
      · cases p.colors <;> simp
      · cases p.tex_coords <;> simp
      · intro s hs
        injection hs with h2
        subst h2
        exact ⟨rfl, rfl⟩

/-- Offsets recorded along a packing run form a chain: each entry's
offset (`f`) equals the running buffer length, which then grows by that
entry's byte size (`g`), ending no later than `hi`. -/
def Chained (f g : PrimitiveInfo → ℕ) : ℕ → List PrimitiveInfo → ℕ → Prop
  | lo, [], hi => lo ≤ hi
  | lo, p :: rest, hi => lo = f p ∧ Chained f g (f p + g p) rest hi

theorem Chained.le {f g : PrimitiveInfo → ℕ} {lo hi : ℕ}
    {l : List PrimitiveInfo} (h : Chained f g lo l hi) : lo ≤ hi := by
  induction l generalizing lo with
  | nil => exact h
  | cons p rest ih =>
    obtain ⟨hlo, hrest⟩ := h
    subst hlo
    exact Nat.le_trans (Nat.le_add_right _ _) (ih hrest)

theorem Chained.weaken {f g : PrimitiveInfo → ℕ} {lo hi hi' : ℕ}
    {l : List PrimitiveInfo} (h : Chained f g lo l hi) (hle : hi ≤ hi') :
    Chained f g lo l hi' := by
  induction l generalizing lo with
  | nil => exact Nat.le_trans h hle
  | cons p rest ih => exact ⟨h.1, ih h.2⟩

theorem Chained.lo_le_get {f g : PrimitiveInfo → ℕ} {lo hi : ℕ}
    {l : List PrimitiveInfo} (h : Chained f g lo l hi) :
    ∀ (j : ℕ) pj, l[j]? = some pj → lo ≤ f pj := by
  induction l generalizing lo with
  | nil => intro j pj hj; simp at hj
  | cons p rest ih =>
    intro j pj hj
    obtain ⟨hlo, hrest⟩ := h
    subst hlo
    cases j with
    | zero => simp at hj; subst hj; exact Nat.le_refl _
    | succ j' =>
      simp only [List.getElem?_cons_succ] at hj
      exact Nat.le_trans (Nat.le_add_right _ _) (ih hrest j' pj hj)

/-- Within one chained run, an earlier entry's end never passes a later
entry's offset. -/
theorem Chained.get_le_get {f g : PrimitiveInfo → ℕ} {lo hi : ℕ}
    {l : List PrimitiveInfo} (h : Chained f g lo l hi) :
    ∀ (i j : ℕ) pi pj, i < j → l[i]? = some pi → l[j]? = some pj →
      f pi + g pi ≤ f pj := by
  induction l generalizing lo with
  | nil => intro i j pi pj _ hi' _; simp at hi'
  | cons p rest ih =>
    intro i j pi pj hij hi' hj'
    obtain ⟨hlo, hrest⟩ := h
    cases i with
    | zero =>
      simp only [List.getElem?_cons_zero, Option.some.injEq] at hi'
      subst hi'
      cases j with
      | zero => omega
      | succ j' =>
        simp only [List.getElem?_cons_succ] at hj'
        exact hrest.lo_le_get j' pj hj'
    | succ i' =>
      cases j with
      | zero => omega
      | succ j' =>
        simp only [List.getElem?_cons_succ] at hi' hj'
        exact ih hrest i' j' pi pj (by omega) hi' hj'

/-- Every chained entry's end stays within the final buffer length. -/
theorem Chained.mem_le {f g : PrimitiveInfo → ℕ} {lo hi : ℕ}
    {l : List PrimitiveInfo} (h : Chained f g lo l hi) :
    ∀ p ∈ l, f p + g p ≤ hi := by
  induction l generalizing lo with
  | nil => intro p hp; simp at hp
  | cons q rest ih =>
    intro p hp
    obtain ⟨hlo, hrest⟩ := h
    rcases List.mem_cons.mp hp with hpq | hpr
    · subst hpq; exact hrest.le
    · exact ih hrest p hpr

abbrev ixOff : PrimitiveInfo → ℕ := fun p => p.index_offset
abbrev ixSize : PrimitiveInfo → ℕ := fun p => 4 * p.index_count
abbrev vxOff : PrimitiveInfo → ℕ := fun p => p.vertex_offset
abbrev vxSize : PrimitiveInfo → ℕ := fun p => 12 * p.vertex_count

/-- A successful run of the inner primitive loop produces chained index
and vertex offsets between the incoming and outgoing buffer lengths, and
never shrinks any accumulator. -/
theorem processPrimitives_chain (ps : List GPrimitive) (st st' : PackState)
    (infos : List PrimitiveInfo)
    (h : processPrimitives st ps = some (st', infos)) :
    Chained ixOff ixSize st.index_data.length infos
        st'.index_data.length ∧
    Chained vxOff vxSize st.vertex_data infos st'.vertex_data ∧
    st.color_data ≤ st'.color_data ∧
    st.tex_coord_data ≤ st'.tex_coord_data ∧
    infos.length = ps.length := by
  induction ps generalizing st infos with
  | nil =>
    simp only [processPrimitives, Option.some.injEq, Prod.mk.injEq] at h
    obtain ⟨h1, h2⟩ := h
    subst h1 h2
    simp [Chained]
  | cons p ps ih =>
    simp only [processPrimitives, Option.bind_eq_bind, bind,
      Option.bind_eq_some] at h
    obtain ⟨⟨st1, info⟩, hp, h⟩ := h
    obtain ⟨⟨st2, infos2⟩, hps, h⟩ := h
    simp only [Option.some.injEq, Prod.mk.injEq] at h
    obtain ⟨h1, h2⟩ := h
    subst h1 h2
    obtain ⟨hio, hvo, hil, hvl, hc, ht, _, _, _, _⟩ :=
      processPrimitive_spec st p st1 info hp
    obtain ⟨c1, c2, c3, c4, c5⟩ := ih st1 infos2 hps
    refine ⟨⟨hio.symm, ?_⟩, ⟨hvo.symm, ?_⟩, Nat.le_trans hc c3,
      Nat.le_trans ht c4, by simp [c5]⟩
    · rw [ixOff, ixSize, hio, ← hil]; exact c1
    · rw [vxOff, vxSize, hvo, ← hvl]; exact c2

/-- Invariants of the outer mesh loop: buffers only grow, the produced
mesh infos are index-aligned with the document meshes (same names, same
primitive counts, in order), and every produced mesh's primitive infos
are chained within the final buffer lengths. -/
theorem processMeshList_spec (ms : List GMesh) (st st' : PackState)
    (minfos : List MeshInfo)
    (h : processMeshList st ms = some (st', minfos)) :
    st.index_data.length ≤ st'.index_data.length ∧
    st.vertex_data ≤ st'.vertex_data ∧
    minfos.map (fun m => m.name) = ms.map (fun m => m.name) ∧
    minfos.map (fun m => m.primitive_infos.length) =
      ms.map (fun m => m.primitives.length) ∧
    ∀ m ∈ minfos,
      (∃ lo, Chained ixOff ixSize lo m.primitive_infos
          st'.index_data.length) ∧
      (∃ lo, Chained vxOff vxSize lo m.primitive_infos st'.vertex_data) := by
  induction ms generalizing st minfos with
  | nil =>
    simp only [processMeshList, Option.some.injEq, Prod.mk.injEq] at h
    obtain ⟨h1, h2⟩ := h
    subst h1 h2
    simp
  | cons m ms ih =>
    simp only [processMeshList, Option.bind_eq_bind, bind,
      Option.bind_eq_some] at h
    obtain ⟨⟨st1, pinfos⟩, hp, h⟩ := h
    obtain ⟨⟨st2, minfos2⟩, hms, h⟩ := h
    simp only [Option.some.injEq, Prod.mk.injEq] at h
    obtain ⟨h1, h2⟩ := h
    subst h1 h2
    obtain ⟨c1, c2, c3, c4, c5⟩ := processPrimitives_chain m.primitives st
      st1 pinfos hp
    obtain ⟨i1, i2, i3, i4, i5⟩ := ih st1 minfos2 hms
    refine ⟨Nat.le_trans c1.le i1, Nat.le_trans c2.le i2, by simp [i3],
      by simp [i4, c5], ?_⟩
    intro mi hmi
    rcases List.mem_cons.mp hmi with hhd | htl
    · subst hhd
      exact ⟨⟨_, c1.weaken i1⟩, ⟨_, c2.weaken i2⟩⟩
    · exact i5 mi htl

/-- Unpacks a successful `process_meshes` run. -/
theorem process_meshes_elim (meshes : List GMesh) (md : MeshData)
    (h : process_meshes meshes = some md) :
    ∃ st, processMeshList ⟨[], 0, 0, 0⟩ meshes = some (st, md.mesh_infos) ∧
      md.index_buffer = st.index_data ∧
      md.vertex_buffer = st.vertex_data ∧
      md.color_buffer =
        (if st.color_data ≠ 0 then some st.color_data else none) ∧
      md.tex_coord_buffer =
        (if st.tex_coord_data ≠ 0 then some st.tex_coord_data else none) := by
  simp only [process_meshes, Option.bind_eq_bind, bind,
    Option.bind_eq_some] at h
  obtain ⟨⟨st, minfos⟩, hrun, h⟩ := h
  simp only [Option.some.injEq] at h
  subst h
  exact ⟨st, hrun, rfl, rfl, rfl, rfl⟩

/-- A successful primitive loop implies every primitive supplied the two
required streams. -/
theorem processPrimitives_streams (ps : List GPrimitive)
    (st st' : PackState) (infos : List PrimitiveInfo)
    (h : processPrimitives st ps = some (st', infos)) :
    ∀ p ∈ ps, p.indices.isSome ∧ p.positions.isSome := by
  induction ps generalizing st st' infos with
  | nil => intro p hp; simp at hp
  | cons phd ptl ih =>
    simp only [processPrimitives, Option.bind_eq_bind, bind,
      Option.bind_eq_some] at h
    obtain ⟨⟨st1, info⟩, hq, h⟩ := h
    obtain ⟨⟨st2, infos2⟩, hps, _⟩ := h
    intro p hp
    rcases List.mem_cons.mp hp with hh | ht
    · subst hh
      cases h1 : p.indices with
      | none =>
        rw [(processPrimitive_isNone_iff st p).mpr (Or.inl h1)] at hq
        exact Option.noConfusion hq
      | some s1 =>
        cases h2 : p.positions with
        | none =>
          rw [(processPrimitive_isNone_iff st p).mpr (Or.inr h2)] at hq
          exact Option.noConfusion hq
        | some s2 => simp [h1, h2]
    · exact ih _ _ _ hps p ht

/-- A successful mesh loop implies every primitive of every mesh supplied
the required streams. -/
theorem processMeshList_streams (ms : List GMesh) (st st' : PackState)
    (minfos : List MeshInfo)
    (h : processMeshList st ms = some (st', minfos)) :
    ∀ m ∈ ms, ∀ p ∈ m.primitives,
      p.indices.isSome ∧ p.positions.isSome := by
  induction ms generalizing st st' minfos with
  | nil => intro m hm; simp at hm
  | cons mhd mtl ih =>
    simp only [processMeshList, Option.bind_eq_bind, bind,
      Option.bind_eq_some] at h
    obtain ⟨⟨st1, pinfos⟩, hq, h⟩ := h
    obtain ⟨⟨st2, minfos2⟩, hms, _⟩ := h
    intro m hm
    rcases List.mem_cons.mp hm with hh | ht
    · subst hh
      exact processPrimitives_streams m.primitives st _ pinfos hq
    · exact ih _ _ _ hms m ht

/-- A missing required stream anywhere aborts the whole packing run. -/
theorem process_meshes_fatal (meshes : List GMesh) (m : GMesh)
    (p : GPrimitive) (hm : m ∈ meshes) (hp : p ∈ m.primitives)
    (hbad : p.indices = none ∨ p.positions = none) :
    process_meshes meshes = none := by
  cases hres : process_meshes meshes with
  | none => rfl
  | some md =>
    obtain ⟨st, hrun, -⟩ := process_meshes_elim meshes md hres
    have := processMeshList_streams meshes _ st md.mesh_infos hrun m hm p hp
    rcases hbad with hb | hb <;> rw [hb] at this <;> simp at this

/-- A missing default scene makes the whole load fail. -/
theorem from_file_none (doc : Document) (now : ℕ)
    (h : doc.default_scene = none) : Scene.from_file doc now = none := by
  simp [Scene.from_file, h]

/-- Unpacks a successful `Scene::from_file` run into its pipeline
stages. -/
theorem from_file_elim (doc : Document) (now : ℕ) (s : Scene)
    (h : Scene.from_file doc now = some s) :
    ∃ roots md insts,
      doc.default_scene = some roots ∧
      process_meshes doc.meshes = some md ∧
      create_blas_instances doc.meshes roots (create_blases md) =
        some insts ∧
      s = { samplers := create_samlers doc.samplers
            mesh_data := md
            instances := insts
            transform_buffer := insts.map (·.transform)
            load_time := now
            material_infos := gather_material_infos doc.materials } := by
  simp only [Scene.from_file, Option.bind_eq_bind, bind,
    Option.bind_eq_some] at h
  obtain ⟨roots, hroots, h⟩ := h
  obtain ⟨md, hmd, h⟩ := h
  obtain ⟨insts, hinsts, h⟩ := h
  simp only [Option.some.injEq] at h
  exact ⟨roots, md, insts, hroots, hmd, hinsts, h.symm⟩

/-! ## Concrete example data (used by the round-trip claim and as
witness inputs) -/

/-- A one-triangle primitive: 3 sixteen-bit indices, 3 positions, no
color or texcoord stream, no material. -/
def exPrim : GPrimitive :=
  { indices := some (.u16 [0, 1, 2])
    positions := some [(0, 0, 0), (1, 0, 0), (0, 1, 0)]
    colors := none
    tex_coords := none
    material := none }

def exMesh : GMesh := { name := some "tri", primitives := [exPrim] }

/-- A single root node with an identity local transform holding mesh 0. -/
def exNode : Node := .mk 1 (some 0) []

def exDoc : Document :=
  { meshes := [exMesh]
    materials := []
    samplers := []
    scenes := [[exNode]]
    scene_index := some 0 }

def exInfo : PrimitiveInfo :=
  { index_offset := 0
    vertex_offset := 0
    index_count := 3
    vertex_count := 3
    material_index := 0
    color_offset := none
    tex_coord_offset := none }

def exMeshData : MeshData :=
  { index_buffer := [0, 0, 0, 0, 1, 0, 0, 0, 2, 0, 0, 0]
    vertex_buffer := 36
    color_buffer := none
    tex_coord_buffer := none
    mesh_infos := [{ name := some "tri", primitive_infos := [exInfo] }] }

theorem exDoc_meshes_eval : process_meshes exDoc.meshes = some exMeshData := by
  rfl

theorem exDoc_blases_eval :
    create_blases exMeshData =
      [{ triangle_geometries :=
          [{ index_buffer_view :=
              { offset := 0, index_type := IndexType.uint32, count := 3 }
             vertex_buffer_view :=
              { offset := 0, stride := 12, count := 3 } }] }] := by
  rfl

theorem exDoc_nodes_eval :
    process_node_list exDoc.meshes (create_blases exMeshData) [exNode] 0 1 =
      some ([{ blas_index := 0, transform := 1, instance_offset := 0,
               instance_custom_index := 0 }], 1) := by
  simp [process_node_list.eq_def, process_node.eq_def, exDoc, exMesh,
    exNode, exPrim, exMeshData, create_blases, mul_one]

/-- The scene `Scene::from_file` produces for `exDoc` when the clock
reads `now`. -/
def exScene (now : ℕ) : Scene :=
  { samplers := create_samlers exDoc.samplers
    mesh_data := exMeshData
    instances := [{ blas_index := 0, transform := 1, instance_offset := 0,
                    instance_custom_index := 0 }]
    transform_buffer := [1]
    load_time := now
    material_infos := gather_material_infos exDoc.materials }

theorem exDoc_from_file_eval (now : ℕ) :
    Scene.from_file exDoc now = some (exScene now) := by
  have hds : exDoc.default_scene = some [exNode] := by
    simp [Document.default_scene, exDoc]
  have hin : create_blas_instances exDoc.meshes [exNode]
      (create_blases exMeshData) =
      some [{ blas_index := 0, transform := 1, instance_offset := 0,
              instance_custom_index := 0 }] := by
    simp [create_blas_instances, exDoc_nodes_eval]
  simp [Scene.from_file, hds, exDoc_meshes_eval, hin, exScene]

theorem exNode_eval :
    process_node exDoc.meshes (create_blases exMeshData) exNode 0 1 =
      some ([{ blas_index := 0, transform := 1, instance_offset := 0,
               instance_custom_index := 0 }], 1) := by
  simp [process_node.eq_def, process_node_list.eq_def, exDoc, exMesh,
    exNode, exPrim, exMeshData, create_blases, mul_one]

/-- A primitive with no index stream (the position stream alone is not
enough). -/
def exBadPrim : GPrimitive :=
  { indices := none
    positions := some [(0, 0, 0)]
    colors := none
    tex_coords := none
    material := none }

def exBadMesh : GMesh := { name := none, primitives := [exBadPrim] }

/-! ## Claim theorems -/

/-- C1: every node visited by `process_node` gets the absolute transform
`parent_absolute * local`, and the composed absolute transform — never
the node-local one — is what the children are visited against: the
emitted transforms coincide with the spec-side recursion `specVisit`.
`create_blas_instances` runs the traversal from the identity parent, so
a root node composes against the identity and its own instance carries
exactly its local transform. -/
theorem C1_transform_composition (meshes : List GMesh)
    (blases : List BLAS) (n : Node) (off : ℕ) (parent : Mat4)
    (insts : List BLASInstance) (off' : ℕ)
    (h : process_node meshes blases n off parent = some (insts, off')) :
    insts.map (·.transform) = (specVisit parent n).map Prod.snd ∧
    (∀ roots : List Node, create_blas_instances meshes roots blases =
      (process_node_list meshes blases roots 0 1).map Prod.fst) ∧
    (∀ lt mi c, n = Node.mk lt (some mi) c → parent = 1 →
      insts.head?.map (·.transform) = some lt) := by
  have hsim := (process_node_sim meshes blases).1 n off parent insts off' h
  refine ⟨?_, fun roots => rfl, ?_⟩
  · rw [hsim.1, specInstances_map_transform]
  · intro lt mi c hn hp
    subst hn
    subst hp
    rw [hsim.1, specVisit_mk]
    simp [specInstances, one_mul]

/-- Witness for C1 at the one-node example document: the single emitted
instance's transform list agrees with the spec traversal's. -/
theorem C1_transform_composition_witness :
    ([{ blas_index := 0, transform := 1, instance_offset := 0,
        instance_custom_index := 0 }] : List BLASInstance).map
        (·.transform) =
      (specVisit 1 exNode).map Prod.snd :=
  (C1_transform_composition exDoc.meshes (create_blases exMeshData) exNode
    0 1 _ 1 exNode_eval).1

/-- C2: the traversal emits exactly one instance per mesh-bearing node,
stamping the shared counter's current value as its primitive offset and
then advancing the counter by that mesh's primitive count — the emitted
list equals the spec counter machine `specInstances` replayed on the
visit list — and the final counter is the initial counter plus the sum
of primitive counts over all visited node-references (shared across all
roots, never reset). -/
theorem C2_primitive_counter (meshes : List GMesh) (blases : List BLAS)
    (roots : List Node) (off : ℕ) (parent : Mat4)
    (insts : List BLASInstance) (off' : ℕ)
    (h : process_node_list meshes blases roots off parent =
      some (insts, off')) :
    insts = specInstances meshes (specVisitList parent roots) off ∧
    off' = off + specTotalPrims meshes (specVisitList parent roots) :=
  (process_node_sim meshes blases).2 roots off parent insts off' h

/-- Witness for C2 at the one-node example document: the final counter is
0 plus the example mesh's primitive count. -/
theorem C2_primitive_counter_witness :
    ([{ blas_index := 0, transform := 1, instance_offset := 0,
        instance_custom_index := 0 }] : List BLASInstance) =
      specInstances exDoc.meshes (specVisitList 1 [exNode]) 0 ∧
    (1 : ℕ) = 0 + specTotalPrims exDoc.meshes (specVisitList 1 [exNode]) :=
  C2_primitive_counter exDoc.meshes (create_blases exMeshData) [exNode]
    0 1 _ 1 exDoc_nodes_eval

/-- C3: the packer records each stream's accumulated byte length before
appending as the primitive's offset; hence within every produced mesh,
index and vertex offsets are non-decreasing in packing order (an earlier
primitive's offset plus its byte size never passes a later primitive's
offset, so equality needs zero contributed bytes), and
`index_offset + 4 * index_count` never exceeds the final index buffer's
byte length. -/
theorem C3_offset_bookkeeping (meshes : List GMesh) (md : MeshData)
    (h : process_meshes meshes = some md) :
    (∀ st p st' info, processPrimitive st p = some (st', info) →
      info.index_offset = st.index_data.length ∧
      info.vertex_offset = st.vertex_data ∧
      (p.colors.isSome → info.color_offset = some st.color_data) ∧
      (p.tex_coords.isSome →
        info.tex_coord_offset = some st.tex_coord_data)) ∧
    (∀ m ∈ md.mesh_infos,
      (∀ (i j : ℕ) pa pb, i < j → m.primitive_infos[i]? = some pa →
        m.primitive_infos[j]? = some pb →
        pa.index_offset + 4 * pa.index_count ≤ pb.index_offset ∧
        pa.vertex_offset + 12 * pa.vertex_count ≤ pb.vertex_offset) ∧
      (∀ p ∈ m.primitive_infos,
        p.index_offset + 4 * p.index_count ≤ md.index_buffer.length ∧
        p.vertex_offset + 12 * p.vertex_count ≤ md.vertex_buffer)) := by
  obtain ⟨st, hrun, hib, hvb, -, -⟩ := process_meshes_elim meshes md h
  obtain ⟨-, -, -, -, hch⟩ :=
    processMeshList_spec meshes _ st md.mesh_infos hrun
  constructor
  · intro st0 p st1 info hp
    obtain ⟨h1, h2, -, -, -, -, hcol, htex, -, -⟩ :=
      processPrimitive_spec st0 p st1 info hp
    refine ⟨h1, h2, ?_, ?_⟩
    · intro hc
      rw [hcol]
      cases hcx : p.colors with
      | none => rw [hcx] at hc; simp at hc
      | some v => simp
    · intro ht
      rw [htex]
      cases htx : p.tex_coords with
      | none => rw [htx] at ht; simp at ht
      | some v => simp
  · intro m hm
    obtain ⟨⟨lo1, hc1⟩, ⟨lo2, hc2⟩⟩ := hch m hm
    constructor
    · intro i j pa pb hij hi hj
      exact ⟨hc1.get_le_get i j pa pb hij hi hj,
        hc2.get_le_get i j pa pb hij hi hj⟩
    · intro p hp
      rw [hib, hvb]
      exact ⟨hc1.mem_le p hp, hc2.mem_le p hp⟩

/-- Witness for C3 at the example document: the recorded primitive stays
within the final buffers. -/
theorem C3_offset_bookkeeping_witness :
    exInfo.index_offset + 4 * exInfo.index_count ≤
      exMeshData.index_buffer.length ∧
    exInfo.vertex_offset + 12 * exInfo.vertex_count ≤
      exMeshData.vertex_buffer :=
  ((C3_offset_bookkeeping exDoc.meshes exMeshData exDoc_meshes_eval).2
    { name := some "tri", primitive_infos := [exInfo] }
    (by simp [exMeshData])).2 exInfo (by simp)

/-- C4: the Nth bottom-level acceleration structure is built from the Nth
`MeshInfo`, which is index-aligned with the Nth document mesh; each BLAS
holds exactly one triangle-geometry descriptor per primitive pointing at
the primitive's recorded index/vertex offsets, with the index type fixed
to 32-bit; during packing every index element occupies 4 bytes, and
narrower 8/16-bit index streams are normalized value-preservingly to
32-bit by `into_u32`. -/
theorem C4_blas_mesh_alignment (meshes : List GMesh) (md : MeshData)
    (h : process_meshes meshes = some md) :
    (create_blases md).length = meshes.length ∧
    md.mesh_infos.map (fun m => m.name) = meshes.map (fun m => m.name) ∧
    (∀ (n : ℕ) blas minfo, (create_blases md)[n]? = some blas →
      md.mesh_infos[n]? = some minfo →
      blas.triangle_geometries =
        minfo.primitive_infos.map fun primitive =>
          { index_buffer_view :=
              { offset := primitive.index_offset
                index_type := IndexType.uint32
                count := primitive.index_count }
            vertex_buffer_view :=
              { offset := primitive.vertex_offset
                stride := 12
                count := primitive.vertex_count } }) ∧
    (∀ st p st' info, processPrimitive st p = some (st', info) →
      st'.index_data.length = st.index_data.length + 4 * info.index_count) ∧
    (∀ s : IndexStream, s.intoU32.length = s.sourceVals.length) ∧
    (∀ vals, (∀ x ∈ vals, x < 256) →
      (IndexStream.u8 vals).intoU32 = vals) ∧
    (∀ vals, (∀ x ∈ vals, x < 65536) →
      (IndexStream.u16 vals).intoU32 = vals) := by
  obtain ⟨st, hrun, -, -, -, -⟩ := process_meshes_elim meshes md h
  obtain ⟨-, -, hnames, -, -⟩ :=
    processMeshList_spec meshes _ st md.mesh_infos hrun
  have hlen : md.mesh_infos.length = meshes.length := by
    have := congrArg List.length hnames
    simpa using this
  refine ⟨by simp [create_blases, hlen], hnames, ?_, ?_, ?_, ?_, ?_⟩
  · intro n blas minfo hb hm
    rw [create_blases, List.getElem?_map, hm] at hb
    simp only [Option.map_some', Option.some.injEq] at hb
    rw [← hb]
  · intro st0 p st1 info hp
    exact (processPrimitive_spec st0 p st1 info hp).2.2.1
  · intro s
    cases s <;> simp [IndexStream.intoU32, IndexStream.sourceVals]
  · intro vals hv
    simp only [IndexStream.intoU32]
    rw [List.map_congr_left fun x hx => Nat.mod_eq_of_lt (hv x hx)]
    exact List.map_id vals
  · intro vals hv
    simp only [IndexStream.intoU32]
    rw [List.map_congr_left fun x hx => Nat.mod_eq_of_lt (hv x hx)]
    exact List.map_id vals

/-- Witness for C4 at the example document: one BLAS for the one mesh. -/
theorem C4_blas_mesh_alignment_witness :
    (create_blases exMeshData).length = exDoc.meshes.length :=
  (C4_blas_mesh_alignment exDoc.meshes exMeshData exDoc_meshes_eval).1

/-- C5: a primitive missing its required index or position stream makes
the packing step — and therefore the whole `process_meshes` run — fail,
while a missing optional color/texcoord stream is recorded as "no
offset" (`none`, never a fabricated zero); when the stream is present
the recorded offset is the accumulated length itself, so `some 0` is the
valid offset of the first primitive that supplies the stream. -/
theorem C5_required_optional_streams :
    (∀ st p, processPrimitive st p = none ↔
      (p.indices = none ∨ p.positions = none)) ∧
    (∀ meshes m p, m ∈ meshes → p ∈ m.primitives →
      (p.indices = none ∨ p.positions = none) →
      process_meshes meshes = none) ∧
    (∀ st p st' info, processPrimitive st p = some (st', info) →
      info.color_offset = (p.colors.map fun _ => st.color_data) ∧
      info.tex_coord_offset =
        (p.tex_coords.map fun _ => st.tex_coord_data) ∧
      (p.colors = none → info.color_offset = none) ∧
      (p.colors.isSome → st.color_data = 0 →
        info.color_offset = some 0) ∧
      (p.tex_coords = none → info.tex_coord_offset = none) ∧
      (p.tex_coords.isSome → st.tex_coord_data = 0 →
        info.tex_coord_offset = some 0)) := by
  refine ⟨processPrimitive_isNone_iff,
    fun meshes m p hm hp hb => process_meshes_fatal meshes m p hm hp hb,
    ?_⟩
  intro st p st' info hsome
  obtain ⟨-, -, -, -, -, -, hcol, htex, -, -⟩ :=
    processPrimitive_spec st p st' info hsome
  refine ⟨hcol, htex, ?_, ?_, ?_, ?_⟩
  · intro hn; rw [hcol, hn]; rfl
  · intro hs hz
    rw [hcol]
    cases hcx : p.colors with
    | none => rw [hcx] at hs; simp at hs
    | some v => simp [hz]
  · intro hn; rw [htex, hn]; rfl
  · intro hs hz
    rw [htex]
    cases htx : p.tex_coords with
    | none => rw [htx] at hs; simp at hs
    | some v => simp [hz]

/-- Witness for C5: the example document with its index stream removed
fails to load as a whole. -/
theorem C5_required_optional_streams_witness :
    process_meshes [exBadMesh] = none :=
  C5_required_optional_streams.2.1 [exBadMesh] exBadMesh exBadPrim
    (by simp) (by simp [exBadMesh]) (Or.inl rfl)

/-- C6: the produced material list always starts with the fixed default
material — base-color factor (1,1,1,1), no textures, metallic 1.0,
roughness 1.0 — regardless of document content, followed by one resolved
entry per document material in document order; and a primitive's
`material_index` is the document material index plus 1, or 0 when the
primitive has no material. -/
theorem C6_material_defaults :
    (∀ mats, (gather_material_infos mats)[0]? =
      some { base_color_factor := ((1 : ℚ), (1 : ℚ), (1 : ℚ), (1 : ℚ))
             base_color_texture := none
             metallic_roughness_texture := none
             metallic_factor := 1
             roughness_factor := 1 }) ∧
    (∀ mats, (gather_material_infos mats).length = mats.length + 1) ∧
    (∀ mats (i : ℕ), (gather_material_infos mats)[i + 1]? =
      (mats[i]?).map fun m =>
        { base_color_factor := m.base_color_factor
          base_color_texture := m.base_color_texture.map resolveTexture
          metallic_roughness_texture :=
            m.metallic_roughness_texture.map resolveTexture
          metallic_factor := m.metallic_factor
          roughness_factor := m.roughness_factor }) ∧
    (∀ st p st' info, processPrimitive st p = some (st', info) →
      (∀ i, p.material = some i → info.material_index = i + 1) ∧
      (p.material = none → info.material_index = 0)) := by
  refine ⟨fun mats => by simp [gather_material_infos],
    fun mats => by simp [gather_material_infos],
    fun mats i => by simp [gather_material_infos], ?_⟩
  intro st p st' info hp
  have hmat := (processPrimitive_spec st p st' info hp).2.2.2.2.2.2.2.2.1
  constructor
  · intro i hi; rw [hmat, hi]
  · intro hn; rw [hmat, hn]

/-- Witness for C6: the material list of a document with no materials is
exactly the default entry. -/
theorem C6_material_defaults_witness :
    (gather_material_infos ([] : List GMaterial))[0]? =
      some { base_color_factor := ((1 : ℚ), (1 : ℚ), (1 : ℚ), (1 : ℚ))
             base_color_texture := none
             metallic_roughness_texture := none
             metallic_factor := 1
             roughness_factor := 1 } :=
  C6_material_defaults.1 []

/-- C7: slot 0 of the produced sampler list is always the synthetic
linear-filter, clamp-to-edge sampler, independent of document content,
with the document's samplers following at indices ≥ 1; a resolved
texture's `sampler_index` is the document sampler index plus 1, or 0
when the texture has no explicit sampler; `image_index` is the
document's image index unshifted. -/
theorem C7_sampler_defaults :
    (∀ ss, (create_samlers ss)[0]? =
      some { name := some "default sampler"
             mag_filter := Filter.linear
             min_filter := Filter.linear
             address_mode_u := SamplerAddressMode.clampToEdge
             address_mode_v := SamplerAddressMode.clampToEdge }) ∧
    (∀ ss, (create_samlers ss).length = ss.length + 1) ∧
    (∀ ss (i : ℕ), (create_samlers ss)[i + 1]? =
      (ss[i]?).map fun sampler =>
        { name := sampler.name
          mag_filter := convertMagFilter sampler.mag_filter
          min_filter := convertMinFilter sampler.min_filter
          address_mode_u := convertWrap sampler.wrap_s
          address_mode_v := convertWrap sampler.wrap_t }) ∧
    (∀ t i, t.sampler = some i →
      (resolveTexture t).sampler_index = i + 1) ∧
    (∀ t, t.sampler = none → (resolveTexture t).sampler_index = 0) ∧
    (∀ t, (resolveTexture t).image_index = t.source) := by
  refine ⟨fun ss => by simp [create_samlers],
    fun ss => by simp [create_samlers],
    fun ss i => by simp [create_samlers], ?_, ?_, fun t => rfl⟩
  · intro t i hi; simp [resolveTexture, hi]
  · intro t ht; simp [resolveTexture, ht]

/-- Witness for C7: a texture reference with no explicit sampler resolves
to sampler slot 0, and its image index is carried through unshifted. -/
theorem C7_sampler_defaults_witness :
    (resolveTexture { sampler := none, source := 5 }).sampler_index = 0 :=
  C7_sampler_defaults.2.2.2.2.1 { sampler := none, source := 5 } rfl

/-- C8: loading the concrete single-node, one-triangle document yields
exactly one instance with the identity absolute transform and primitive
offset 0, and exactly one `MeshInfo` holding exactly one `PrimitiveInfo`
with offsets 0, counts 3, material index 0 and no color/texcoord
offsets. -/
theorem C8_roundtrip :
    ∃ s, Scene.from_file exDoc 0 = some s ∧
      s.instances.map
          (fun i => (i.blas_index, i.transform, i.instance_offset)) =
        [(0, (1 : Mat4), 0)] ∧
      s.mesh_data.mesh_infos =
        [{ name := some "tri"
           primitive_infos :=
            [{ index_offset := 0
               vertex_offset := 0
               index_count := 3
               vertex_count := 3
               material_index := 0
               color_offset := none
               tex_coord_offset := none }] }] := by
  refine ⟨exScene 0, exDoc_from_file_eval 0, ?_, ?_⟩
  · simp [exScene]
  · rfl

theorem process_meshes_length (meshes : List GMesh) (md : MeshData)
    (h : process_meshes meshes = some md) :
    md.mesh_infos.length = meshes.length := by
  obtain ⟨st, hrun, -, -, -, -⟩ := process_meshes_elim meshes md h
  obtain ⟨-, -, hnames, -, -⟩ :=
    processMeshList_spec meshes _ st md.mesh_infos hrun
  have := congrArg List.length hnames
  simpa using this

/-- The example document with the default-scene index removed. -/
def exDocNoScene : Document :=
  { meshes := [exMesh]
    materials := []
    samplers := []
    scenes := [[exNode]]
    scene_index := none }

/-- C9: `Scene::from_file` fails on a document without a default scene,
and on success every mesh of the document gets a bottom-level structure
while instances are emitted only for mesh references reachable from the
default scene's roots — a mesh index not visited there is referenced by
no instance. -/
theorem C9_default_scene_gating :
    (∀ doc now, doc.default_scene = none →
      Scene.from_file doc now = none) ∧
    (∀ doc now s, Scene.from_file doc now = some s →
      ∃ roots, doc.default_scene = some roots ∧
        (create_blases s.mesh_data).length = doc.meshes.length ∧
        s.instances.map (·.blas_index) =
          (specVisitList 1 roots).map Prod.fst ∧
        (∀ mi, mi ∉ (specVisitList 1 roots).map Prod.fst →
          ∀ inst ∈ s.instances, inst.blas_index ≠ mi)) := by
  refine ⟨from_file_none, ?_⟩
  intro doc now s h
  obtain ⟨roots, md, insts, hroots, hmd, hinsts, hs⟩ :=
    from_file_elim doc now s h
  subst hs
  obtain ⟨⟨il, offl⟩, hrun, hfst⟩ :=
    Option.map_eq_some'.mp hinsts
  have hsim := (process_node_sim doc.meshes (create_blases md)).2 roots 0 1
    il offl hrun
  have hmap : insts.map (·.blas_index) =
      (specVisitList 1 roots).map Prod.fst := by
    have : il = insts := hfst
    rw [← this, hsim.1, specInstances_map_blas]
  refine ⟨roots, hroots, ?_, hmap, ?_⟩
  · simp only [create_blases, List.length_map]
    exact process_meshes_length doc.meshes md hmd
  · intro mi hmi inst hinst heq
    apply hmi
    rw [← hmap, ← heq]
    exact List.mem_map_of_mem _ hinst

/-- Witness for C9: removing the default-scene index from the example
document makes the load fail. -/
theorem C9_default_scene_gating_witness :
    Scene.from_file exDocNoScene 0 = none :=
  C9_default_scene_gating.1 exDocNoScene 0
    (by simp [Document.default_scene, exDocNoScene])

/-- C10: `Scene` equality is decided solely by `load_time`: it holds iff
the two load instants coincide (buffers, metadata and document content
are ignored), it is reflexive, and two scenes loaded from the same
document at different instants compare unequal. -/
theorem C10_scene_equality (a b : Scene) :
    (Scene.eq a b = true ↔ a.load_time = b.load_time) ∧
    Scene.eq a a = true ∧
    (∀ doc n1 n2 s1 s2, Scene.from_file doc n1 = some s1 →
      Scene.from_file doc n2 = some s2 → n1 ≠ n2 →
      Scene.eq s1 s2 = false) := by
  refine ⟨by simp [Scene.eq], by simp [Scene.eq], ?_⟩
  intro doc n1 n2 s1 s2 h1 h2 hne
  obtain ⟨r1, m1, i1, -, -, -, hs1⟩ := from_file_elim doc n1 s1 h1
  obtain ⟨r2, m2, i2, -, -, -, hs2⟩ := from_file_elim doc n2 s2 h2
  subst hs1
  subst hs2
  simpa [Scene.eq] using hne

/-- Witness for C10: the example scene equals itself, and the same
document loaded at instants 0 and 1 gives unequal scenes. -/
theorem C10_scene_equality_witness :
    Scene.eq (exScene 0) (exScene 0) = true ∧
    Scene.eq (exScene 0) (exScene 1) = false :=
  ⟨(C10_scene_equality (exScene 0) (exScene 0)).2.1,
   (C10_scene_equality (exScene 0) (exScene 1)).2.2 exDoc 0 1 _ _
     (exDoc_from_file_eval 0) (exDoc_from_file_eval 1) (by decide)⟩

end MaligogGltf
